import Mathlib

/-!
Verification of the `imap-to-lexoffice` message-processing pipeline
(`main.go`) against its natural-language specification.

The Go program is embedded shallowly: pure helpers become Lean functions,
and the effectful pipeline (IMAP commands, HTTP upload) is modelled by
passing the environment's responses in explicitly and recording the calls
the code makes as an event trace.  Machine-level details that no claim
touches (TLS, MIME byte parsing, logging sinks) stay at the interface
boundary, exactly as the spec scopes them.
-/

namespace ImapToLexoffice

/-! ### Attachment filter (`IgnorePatterns`, `shouldIgnoreFile`)

`main.go` lines 30-36 and 245-252.  The three Go regular expressions are
compiled by hand into executable string predicates, keeping Go `regexp`
(RE2) default semantics: `^` anchors at the start of the text, `$` at the
end of the text, and `.` matches any rune except a newline.  -/

/-- Go regex `^PAT` for a literal `PAT`: the pattern matches iff `PAT` is a
prefix of the rune sequence of the filename. -/
def goMatchLiteralAtStart (pat : String) (s : String) : Bool :=
  pat.data.isPrefixOf s.data

/-- Go regex `.ics$`: some rune other than a newline, immediately followed by
the literal `ics` at the end of the text.  Matching a window of length 4
against the end of the string is the only way this pattern can match. -/
def goMatchDotIcsAtEnd (s : String) : Bool :=
  match s.data.reverse with
  | 's' :: 'c' :: 'i' :: c :: _ => c != '\n'
  | _ => false

/-- `IgnorePatterns` (main.go lines 31-36): the build-time list of compiled
patterns, in source order: `^AGB_`, `.ics$`, `^Receipt-`. -/
def IgnorePatterns : List (String → Bool) :=
  [goMatchLiteralAtStart "AGB_", goMatchDotIcsAtEnd, goMatchLiteralAtStart "Receipt-"]

/-- `shouldIgnoreFile` (main.go lines 245-252): scan the pattern list,
returning true on the first match, false when none matches. -/
def shouldIgnoreFile (filename : String) : Bool :=
  IgnorePatterns.any (fun pattern => pattern filename)

/-! ### Upload client adapter (`uploadToLexoffice`)

`main.go` lines 254-298.  Building the multipart body on an in-memory
buffer and constructing the request never fail for the constant URL used,
so the fallible behaviour of the function is its handling of the HTTP
round trip, which we pass in explicitly as the environment's response. -/

/-- Result of `client.Do(req)`: either a transport-level error or a
response carrying a status code and a body. -/
inductive HttpResult where
  | transportError (msg : String)
  | response (status : Nat) (body : String)
  deriving DecidableEq

/-- The error value `uploadToLexoffice` returns: a transport error is
returned as-is (line 288); a non-2xx status is wrapped by
`fmt.Errorf("upload failed with status %d: %s", ...)` (line 294),
retaining the status and the response body. -/
inductive UploadError where
  | transport (msg : String)
  | httpStatus (status : Nat) (body : String)
  deriving DecidableEq

/-- `uploadToLexoffice` (main.go lines 254-298), response handling: a
transport error fails, a status outside `[200, 300)` fails with the status
and body retained, and any 2xx status succeeds with the body ignored. -/
def uploadToLexoffice (httpResult : HttpResult) : Except UploadError Unit :=
  match httpResult with
  | .transportError msg => .error (.transport msg)
  | .response status body =>
      if status < 200 || 300 ≤ status then .error (.httpStatus status body)
      else .ok ()

/-! ### Mailbox state mutator (`moveToFolder`, `ensureFolderExists`)

`main.go` lines 300-355.  The IMAP session's responses to the five
commands the mutator can issue are passed in as an `ImapServer` record;
the commands actually issued are recorded, in order, as a `MailboxOp`
trace. -/

/-- One IMAP mutation-path command issued by the mutator. -/
inductive MailboxOp where
  | listOp (pattern : String)
  | createOp (name : String)
  | copyOp (uid : Nat) (folder : String)
  | storeDeletedOp (uid : Nat)
  | expungeOp
  deriving DecidableEq

/-- The environment's responses to the mutator's commands.  `listResult`
is the mailbox-name list returned by `c.List("", folderName, nil)`. -/
structure ImapServer where
  listResult : Except String (List String)
  createResult : Except String Unit
  copyResult : Except String Unit
  storeResult : Except String Unit
  expungeResult : Except String Unit

/-- ASCII case folding of one character, the fragment of Go's simple
Unicode case folding exercised by mailbox folder names. -/
def asciiLower (c : Char) : Char :=
  if 'A' ≤ c ∧ c ≤ 'Z' then Char.ofNat (c.toNat + 32) else c

/-- `strings.EqualFold` as used on mailbox names (main.go line 343):
case-insensitive equality, modelled by ASCII case folding. -/
def equalFold (a b : String) : Bool :=
  a.data.map asciiLower == b.data.map asciiLower

/-- `ensureFolderExists` (main.go lines 334-355): list mailboxes matching
the folder name; if the listing fails, fail; if some returned mailbox
equals the name case-insensitively, succeed without creating; otherwise
issue a create command and propagate its result. -/
def ensureFolderExists (srv : ImapServer) (folderName : String) :
    List MailboxOp × Except String Unit :=
  match srv.listResult with
  | .error e => ([.listOp folderName], .error ("list failed: " ++ e))
  | .ok mailboxes =>
      if mailboxes.any (fun mbox => equalFold mbox folderName) then
        ([.listOp folderName], .ok ())
      else
        match srv.createResult with
        | .error e =>
            ([.listOp folderName, .createOp folderName],
             .error ("create folder failed: " ++ e))
        | .ok _ => ([.listOp folderName, .createOp folderName], .ok ())

/-- `moveToFolder` (main.go lines 300-332): ensure the destination folder
exists, then copy the message by UID, then store the `\Deleted` flag, then
expunge; the first failing step aborts with its wrapped error and no later
command is issued. -/
def moveToFolder (srv : ImapServer) (uid : Nat) (folderName : String) :
    List MailboxOp × Except String Unit :=
  let ensured := ensureFolderExists srv folderName
  match ensured.2 with
  | .error e => (ensured.1, .error e)
  | .ok _ =>
      match srv.copyResult with
      | .error e => (ensured.1 ++ [.copyOp uid folderName], .error ("copy failed: " ++ e))
      | .ok _ =>
          match srv.storeResult with
          | .error e =>
              (ensured.1 ++ [.copyOp uid folderName, .storeDeletedOp uid],
               .error ("store flags failed: " ++ e))
          | .ok _ =>
              match srv.expungeResult with
              | .error e =>
                  (ensured.1 ++ [.copyOp uid folderName, .storeDeletedOp uid, .expungeOp],
                   .error ("expunge failed: " ++ e))
              | .ok _ =>
                  (ensured.1 ++ [.copyOp uid folderName, .storeDeletedOp uid, .expungeOp],
                   .ok ())

/-! ### Message processor (`processMessage`)

`main.go` lines 153-243.  A fetched-and-parsed message is a list of MIME
parts; each part is either a non-attachment part (the `switch` on the
header type has no case for it, so the loop passes it over) or an
attachment part carrying the filename reported by the header and the
result of `io.ReadAll(part.Body)`.  The Lexoffice upload outcome for a
given attachment is supplied by `uploadFn` (in the program this is
`uploadToLexoffice` applied to the environment's HTTP response for that
attachment).  The processor's observable behaviour is recorded as an
`Event` trace. -/

/-- Decidable equality for `Except`, needed so traces and parts can be
compared on concrete inputs. -/
instance instDecEqExcept {ε α : Type} [DecidableEq ε] [DecidableEq α] :
    DecidableEq (Except ε α) := fun x y =>
  match x, y with
  | .error a, .error b =>
      if h : a = b then .isTrue (by rw [h])
      else .isFalse (by intro hc; cases hc; exact h rfl)
  | .error _, .ok _ => .isFalse (by intro hc; cases hc)
  | .ok _, .error _ => .isFalse (by intro hc; cases hc)
  | .ok a, .ok b =>
      if h : a = b then .isTrue (by rw [h])
      else .isFalse (by intro hc; cases hc; exact h rfl)

/-- One part produced by `mail.CreateReader` / `mr.NextPart()`. -/
inductive Part where
  | attachment (filename : String) (readResult : Except String (List Nat))
  | nonAttachment
  deriving DecidableEq

/-- Whether the part enters the `*mail.AttachmentHeader` case of the
switch at main.go line 204. -/
def Part.isAttachment : Part → Bool
  | .attachment _ _ => true
  | .nonAttachment => false

/-- Observable step taken by the message processor. -/
inductive Event where
  | skippedIgnored (filename : String)
  | readFailed (filename : String)
  | uploadAttempt (filename : String)
  | uploadSucceeded (filename : String)
  | uploadFailed (filename : String)
  | moveInvoked (uid : Nat) (folder : String)
  | mailboxCmd (op : MailboxOp)
  deriving DecidableEq

/-- The per-part loop of `processMessage` (main.go lines 195-230).
Returns the final value of the `hasAttachments` flag together with the
events of the loop, in order.  A skipped attachment produces no read and
no upload; a failed read is logged and the loop continues; an upload is
attempted for every non-skipped, successfully read attachment, and its
failure is logged without aborting the loop. -/
def processParts (uploadFn : String → List Nat → Except UploadError Unit) :
    List Part → Bool × List Event
  | [] => (false, [])
  | .nonAttachment :: rest => processParts uploadFn rest
  | .attachment filename readResult :: rest =>
      let tail := processParts uploadFn rest
      let here :=
        if shouldIgnoreFile filename then [Event.skippedIgnored filename]
        else
          match readResult with
          | .error _ => [Event.readFailed filename]
          | .ok data =>
              match uploadFn filename data with
              | .error _ => [Event.uploadAttempt filename, Event.uploadFailed filename]
              | .ok _ => [Event.uploadAttempt filename, Event.uploadSucceeded filename]
      (true, here ++ tail.2)

/-- `processMessage` (main.go lines 153-243) from the point where the
message has been fetched and parsed into parts: run the per-part loop;
afterwards, if any attachment-typed part was observed, invoke
`moveToFolder(c, uid, "done")` — recording the invocation and the IMAP
commands it issues — and propagate its failure wrapped as
`failed to move message`; otherwise do nothing further. -/
def processMessage (uploadFn : String → List Nat → Except UploadError Unit)
    (srv : ImapServer) (uid : Nat) (parts : List Part) :
    List Event × Except String Unit :=
  let loopResult := processParts uploadFn parts
  if loopResult.1 then
    let moved := moveToFolder srv uid "done"
    match moved.2 with
    | .error e =>
        (loopResult.2 ++ [Event.moveInvoked uid "done"] ++ moved.1.map Event.mailboxCmd,
         .error ("failed to move message: " ++ e))
    | .ok _ =>
        (loopResult.2 ++ [Event.moveInvoked uid "done"] ++ moved.1.map Event.mailboxCmd,
         .ok ())
  else (loopResult.2, .ok ())

/-! ### Mailbox poll driver (`processMailbox`), per-message loop

`main.go` lines 140-145: after the listing fetch succeeds, the driver
calls `processMessage` once per listed UID, in order; a returned error is
logged and the loop continues with the next message. -/

/-- The driver's per-message loop: process each listed UID in order,
pairing it with its result; an error result never stops the recursion. -/
def processEachMessage (process : Nat → Except String Unit) :
    List Nat → List (Nat × Except String Unit)
  | [] => []
  | uid :: rest => (uid, process uid) :: processEachMessage process rest

/-! ### Configuration and startup (`loadConfig`, `getEnvOrDefault`, `main`)

`main.go` lines 21-91.  The process environment is a total map from
variable names to values, where the empty string stands for an unset
variable (exactly how `os.Getenv` reports absence). -/

/-- `Config` (main.go lines 21-28).  The poll interval is modelled in
whole minutes, the granularity the program reads from the environment. -/
structure Config where
  IMAPServer : String
  IMAPPort : String
  IMAPUser : String
  IMAPPassword : String
  LexofficeKey : String
  PollIntervalMinutes : Nat
  deriving DecidableEq

/-- `getEnvOrDefault` (main.go lines 56-61). -/
def getEnvOrDefault (env : String → String) (key defaultValue : String) : String :=
  if env key != "" then env key else defaultValue

/-- `loadConfig` (main.go lines 38-54).  `IMAP_SERVER`, `IMAP_USER`,
`IMAP_PASSWORD` and `LEXOFFICE_API_KEY` are taken verbatim from the
environment; `IMAP_PORT` falls back to `"993"` when unset; the poll
interval falls back to 5 minutes when unset or unparseable (duration
parsing is modelled for whole-minute values). -/
def loadConfig (env : String → String) : Config :=
  { IMAPServer := env "IMAP_SERVER"
    IMAPPort := getEnvOrDefault env "IMAP_PORT" "993"
    IMAPUser := env "IMAP_USER"
    IMAPPassword := env "IMAP_PASSWORD"
    LexofficeKey := env "LEXOFFICE_API_KEY"
    PollIntervalMinutes :=
      if env "POLL_INTERVAL_MINUTES" != "" then
        ((env "POLL_INTERVAL_MINUTES").toNat?).getD 5
      else 5 }

/-- Outcome of the startup validation in `main`. -/
inductive StartupOutcome where
  | fatalMissingEnv
  | proceed (config : Config)
  deriving DecidableEq

/-- The startup path of `main` (main.go lines 63-77): load the
configuration, then `log.Fatal` — terminating before any processing —
when any of `IMAPServer`, `IMAPUser`, `IMAPPassword`, `LexofficeKey` is
blank; otherwise processing proceeds with the loaded configuration. -/
def mainStartup (env : String → String) : StartupOutcome :=
  let config := loadConfig env
  if config.IMAPServer == "" || config.IMAPUser == "" ||
     config.IMAPPassword == "" || config.LexofficeKey == "" then
    .fatalMissingEnv
  else
    .proceed config

/-! ### Event classifiers and concrete test environments -/

/-- Is the event the invocation of the mailbox state mutator? -/
def Event.isMoveInvoked : Event → Bool
  | .moveInvoked _ _ => true
  | _ => false

/-- Is the event an IMAP command issued by the mutator? -/
def Event.isMailboxCmd : Event → Bool
  | .mailboxCmd _ => true
  | _ => false

/-- Is the event any mailbox-state mutation activity (the mutator
invocation or one of its IMAP commands)? -/
def Event.isMailboxMutation : Event → Bool
  | .moveInvoked _ _ => true
  | .mailboxCmd _ => true
  | _ => false

/-- The filename an upload-related event is about, if any. -/
def Event.uploadFilename : Event → Option String
  | .uploadAttempt f => some f
  | .uploadSucceeded f => some f
  | .uploadFailed f => some f
  | _ => none

/-- An IMAP session that answers every command with success and already
has a `done` folder. -/
def allOkServer : ImapServer :=
  { listResult := .ok ["done"]
    createResult := .ok ()
    copyResult := .ok ()
    storeResult := .ok ()
    expungeResult := .ok () }

/-- A process environment in which the four required variables are set
and everything else — `IMAP_PORT` included — is blank. -/
def envBlankPort : String → String := fun key =>
  if key == "IMAP_SERVER" then "imap.example.org"
  else if key == "IMAP_USER" then "alice"
  else if key == "IMAP_PASSWORD" then "secret"
  else if key == "LEXOFFICE_API_KEY" then "key123"
  else ""

/-- A process environment in which every recognized variable is set. -/
def envAllSet : String → String := fun key =>
  if key == "IMAP_SERVER" then "imap.example.org"
  else if key == "IMAP_PORT" then "1993"
  else if key == "IMAP_USER" then "alice"
  else if key == "IMAP_PASSWORD" then "secret"
  else if key == "LEXOFFICE_API_KEY" then "key123"
  else ""

/-! ### Helper lemmas -/

/-- The `hasAttachments` flag computed by the per-part loop is exactly
"some part is attachment-typed". -/
theorem processParts_fst (uploadFn : String → List Nat → Except UploadError Unit)
    (parts : List Part) :
    (processParts uploadFn parts).1 = parts.any Part.isAttachment := by
  induction parts with
  | nil => simp [processParts]
  | cons p rest ih =>
    cases p with
    | nonAttachment => simp [processParts, Part.isAttachment, ih]
    | attachment f r => simp [processParts, Part.isAttachment]

/-- The per-part loop issues no mailbox-mutation activity. -/
theorem processParts_no_mutation (uploadFn : String → List Nat → Except UploadError Unit)
    (parts : List Part) :
    ∀ e ∈ (processParts uploadFn parts).2, e.isMailboxMutation = false := by
  induction parts with
  | nil => intro e he; simp [processParts] at he
  | cons p rest ih =>
    cases p with
    | nonAttachment =>
      intro e he
      exact ih e (by simpa [processParts] using he)
    | attachment f r =>
      intro e he
      simp only [processParts, List.mem_append] at he
      rcases he with he | he
      · by_cases hig : shouldIgnoreFile f
        · simp [hig] at he
          simp [he, Event.isMailboxMutation]
        · cases r with
          | error msg =>
            simp [hig] at he
            simp [he, Event.isMailboxMutation]
          | ok d =>
            cases hud : uploadFn f d with
            | error msg =>
              simp [hig, hud] at he
              rcases he with he | he <;> simp [he, Event.isMailboxMutation]
            | ok _ =>
              simp [hig, hud] at he
              rcases he with he | he <;> simp [he, Event.isMailboxMutation]
      · exact ih e he

/-- Any upload-related event the per-part loop emits is about a filename
the filter does not ignore. -/
theorem processParts_upload_not_ignored
    (uploadFn : String → List Nat → Except UploadError Unit) (parts : List Part) :
    ∀ e ∈ (processParts uploadFn parts).2, ∀ f, e.uploadFilename = some f →
      shouldIgnoreFile f = false := by
  induction parts with
  | nil => intro e he; simp [processParts] at he
  | cons p rest ih =>
    cases p with
    | nonAttachment =>
      intro e he
      exact ih e (by simpa [processParts] using he)
    | attachment g r =>
      intro e he f hf
      simp only [processParts, List.mem_append] at he
      rcases he with he | he
      · by_cases hig : shouldIgnoreFile g
        · simp [hig] at he
          simp [he, Event.uploadFilename] at hf
        · cases r with
          | error msg =>
            simp [hig] at he
            simp [he, Event.uploadFilename] at hf
          | ok d =>
            cases hud : uploadFn g d with
            | error msg =>
              simp [hig, hud] at he
              rcases he with he | he <;> simp [he, Event.uploadFilename] at hf <;>
                simpa [← hf] using (by simpa using hig)
            | ok _ =>
              simp [hig, hud] at he
              rcases he with he | he <;> simp [he, Event.uploadFilename] at hf <;>
                simpa [← hf] using (by simpa using hig)
      · exact ih e he f hf

/-- `processMessage`, unfolded: the trace and the result as functions of
the loop outcome and the mutator outcome. -/
theorem processMessage_eq (uploadFn : String → List Nat → Except UploadError Unit)
    (srv : ImapServer) (uid : Nat) (parts : List Part) :
    processMessage uploadFn srv uid parts =
      (if (processParts uploadFn parts).1 then
        ((processParts uploadFn parts).2 ++ [Event.moveInvoked uid "done"]
          ++ (moveToFolder srv uid "done").1.map Event.mailboxCmd,
         match (moveToFolder srv uid "done").2 with
         | .error e => Except.error ("failed to move message: " ++ e)
         | .ok _ => Except.ok ())
      else ((processParts uploadFn parts).2, Except.ok ())) := by
  by_cases h : (processParts uploadFn parts).1 <;>
    cases hm : (moveToFolder srv uid "done").2 <;>
      simp [processMessage, h, hm]

/-! ### Claim theorems -/

/-- Claim C4: `shouldIgnoreFile` is a pure, total, deterministic
predicate: it returns true exactly when at least one configured ignore
pattern matches the filename, so its yes/no outcome is unchanged under
any reordering (permutation) of the pattern list; the empty filename is
not skipped; `AGB_2024.pdf` is skipped, `invoice.pdf` is not skipped,
and `event.ics` is skipped. -/
theorem shouldIgnoreFile_pure_pattern_disjunction
    (filename : String) (l : List (String → Bool)) (hperm : l.Perm IgnorePatterns) :
    (shouldIgnoreFile filename = true ↔
      ∃ p ∈ IgnorePatterns, p filename = true) ∧
    l.any (fun p => p filename) = shouldIgnoreFile filename ∧
    shouldIgnoreFile "" = false ∧
    shouldIgnoreFile "AGB_2024.pdf" = true ∧
    shouldIgnoreFile "invoice.pdf" = false ∧
    shouldIgnoreFile "event.ics" = true := by
  refine ⟨by simp [shouldIgnoreFile, List.any_eq_true], ?_,
    by decide, by decide, by decide, by decide⟩
  rw [shouldIgnoreFile]
  rcases h1 : l.any (fun p => p filename) with _ | _ <;>
    rcases h2 : IgnorePatterns.any (fun p => p filename) with _ | _
  · rfl
  · rw [List.any_eq_true] at h2
    obtain ⟨p, hp, hpf⟩ := h2
    have : l.any (fun p => p filename) = true :=
      List.any_eq_true.mpr ⟨p, hperm.mem_iff.mpr hp, hpf⟩
    simp [this] at h1
  · rw [List.any_eq_true] at h1
    obtain ⟨p, hp, hpf⟩ := h1
    have : IgnorePatterns.any (fun p => p filename) = true :=
      List.any_eq_true.mpr ⟨p, hperm.mem_iff.mp hp, hpf⟩
    simp [this] at h2
  · rfl

/-- Witness for C4 at concrete inputs: instantiated at the identity
permutation and the filename `AGB_2024.pdf`. -/
theorem shouldIgnoreFile_pure_pattern_disjunction_witness :
    shouldIgnoreFile "AGB_2024.pdf" = true ∧ shouldIgnoreFile "" = false :=
  ⟨(shouldIgnoreFile_pure_pattern_disjunction "AGB_2024.pdf" IgnorePatterns
      (List.Perm.refl _)).2.2.2.1,
   (shouldIgnoreFile_pure_pattern_disjunction "AGB_2024.pdf" IgnorePatterns
      (List.Perm.refl _)).2.2.1⟩

/-- Claim C10, counterexample: the filename `"a\nics"` has length five
and its last three characters are `ics`, yet `shouldIgnoreFile` does not
skip it — in Go's regexp the dot of `.ics$` matches any character
*except* a newline, so the claim's "the dot matches any character" (and
with it the universal statement over all filenames ending in `ics`)
fails at this input. -/
theorem dotIcs_newline_not_skipped :
    ("a\nics".length = 5 ∧
      "a\nics".data.drop ("a\nics".data.length - 3) = ['i', 'c', 's']) ∧
    shouldIgnoreFile "a\nics" = false := by
  decide

/-- Claim C10 as amended: the built-in ignore set consists of exactly
three compiled patterns — prefix `AGB_`, prefix `Receipt-`, and suffix
`.ics` in which the dot matches any character other than a newline — so
`shouldIgnoreFile` skips every filename beginning with `Receipt-` or
`AGB_`, and every filename of length at least four whose last three
characters are `ics` and whose fourth-from-last character is not a
newline, while the bare three-character filename `ics` is not skipped. -/
theorem ignorePatterns_characterization (s : String) :
    IgnorePatterns.length = 3 ∧
    (List.isPrefixOf "Receipt-".data s.data = true → shouldIgnoreFile s = true) ∧
    (List.isPrefixOf "AGB_".data s.data = true → shouldIgnoreFile s = true) ∧
    (∀ c : Char, c ≠ '\n' → ∀ t : List Char,
      s.data = t ++ [c, 'i', 'c', 's'] → shouldIgnoreFile s = true) ∧
    shouldIgnoreFile "ics" = false ∧
    shouldIgnoreFile "Receipt-123.pdf" = true ∧
    shouldIgnoreFile "statistics" = true := by
  refine ⟨by decide, ?_, ?_, ?_, by decide, by decide, by decide⟩
  · intro h
    simp [shouldIgnoreFile, IgnorePatterns, goMatchLiteralAtStart, h]
  · intro h
    simp [shouldIgnoreFile, IgnorePatterns, goMatchLiteralAtStart, h]
  · intro c hc t hdata
    have hmatch : goMatchDotIcsAtEnd s = true := by
      rw [goMatchDotIcsAtEnd, hdata]
      simp [List.reverse_append, hc]
    simp [shouldIgnoreFile, IgnorePatterns, hmatch]

/-- Witness for C10's amended theorem: the suffix rule applied to the
concrete filename `Xics` and the `ics` non-match, at explicit inputs. -/
theorem ignorePatterns_characterization_witness :
    shouldIgnoreFile "Xics" = true ∧ shouldIgnoreFile "ics" = false :=
  ⟨(ignorePatterns_characterization "Xics").2.2.2.1 'X' (by decide) []
      (by decide),
   (ignorePatterns_characterization "ics").2.2.2.2.1⟩

/-- Claim C6: the upload client reports success for every 2xx response
status independently of the response body, and failure for every non-2xx
status or transport error, retaining the status and body (or the
transport error text) in the failure value. -/
theorem uploadToLexoffice_success_iff_2xx (r : HttpResult) :
    (uploadToLexoffice r = Except.ok () ↔
      ∃ status body, r = HttpResult.response status body ∧
        200 ≤ status ∧ status < 300) ∧
    (∀ msg, r = HttpResult.transportError msg →
      uploadToLexoffice r = Except.error (UploadError.transport msg)) ∧
    (∀ status body, r = HttpResult.response status body →
      status < 200 ∨ 300 ≤ status →
      uploadToLexoffice r = Except.error (UploadError.httpStatus status body)) ∧
    (∀ status body body2,
      (uploadToLexoffice (HttpResult.response status body) = Except.ok () ↔
        uploadToLexoffice (HttpResult.response status body2) = Except.ok ())) := by
  have hresp : ∀ status body, uploadToLexoffice (HttpResult.response status body) =
      if status < 200 ∨ 300 ≤ status then
        Except.error (UploadError.httpStatus status body)
      else Except.ok () := by
    intro status body
    by_cases h1 : status < 200
    · simp [uploadToLexoffice, h1]
    · by_cases h2 : 300 ≤ status
      · simp [uploadToLexoffice, h1, h2]
      · simp [uploadToLexoffice, h1, h2]
  refine ⟨?_, ?_, ?_, ?_⟩
  · cases r with
    | transportError msg => simp [uploadToLexoffice]
    | response status body =>
      rw [hresp]
      by_cases h : status < 200 ∨ 300 ≤ status
      · rw [if_pos h]
        constructor
        · intro hcontra
          exact Except.noConfusion hcontra
        · rintro ⟨s2, b2, heq, h200, h300⟩
          injection heq with hs hb
          omega
      · rw [if_neg h]
        push_neg at h
        exact ⟨fun _ => ⟨status, body, rfl, by omega, by omega⟩, fun _ => rfl⟩
  · rintro msg rfl
    rfl
  · rintro status body rfl h
    rw [hresp, if_pos h]
  · intro status body body2
    rw [hresp, hresp]
    by_cases h : status < 200 ∨ 300 ≤ status <;> simp [h]

/-- Witness for C6 at concrete responses: a 201 with an arbitrary body
succeeds; a 500 fails retaining status and body; a transport error fails
with its text. -/
theorem uploadToLexoffice_success_iff_2xx_witness :
    uploadToLexoffice (HttpResult.response 201 "ignored body") = Except.ok () ∧
    uploadToLexoffice (HttpResult.response 500 "oops")
      = Except.error (UploadError.httpStatus 500 "oops") ∧
    uploadToLexoffice (HttpResult.transportError "timeout")
      = Except.error (UploadError.transport "timeout") :=
  ⟨(uploadToLexoffice_success_iff_2xx (HttpResult.response 201 "ignored body")).1.mpr
      ⟨201, "ignored body", rfl, by decide, by decide⟩,
   (uploadToLexoffice_success_iff_2xx (HttpResult.response 500 "oops")).2.2.1 500 "oops"
      rfl (Or.inr (by decide)),
   (uploadToLexoffice_success_iff_2xx (HttpResult.transportError "timeout")).2.1
      "timeout" rfl⟩

/-- The per-part loop never emits a mutator-invocation event. -/
theorem processParts_filter_move (uploadFn : String → List Nat → Except UploadError Unit)
    (parts : List Part) :
    (processParts uploadFn parts).2.filter Event.isMoveInvoked = [] := by
  rw [List.filter_eq_nil_iff]
  intro e he
  have h := processParts_no_mutation uploadFn parts e he
  cases e <;> simp_all [Event.isMailboxMutation, Event.isMoveInvoked]

/-- The per-part loop never emits an IMAP-command event. -/
theorem processParts_filter_cmd (uploadFn : String → List Nat → Except UploadError Unit)
    (parts : List Part) :
    (processParts uploadFn parts).2.filter Event.isMailboxCmd = [] := by
  rw [List.filter_eq_nil_iff]
  intro e he
  have h := processParts_no_mutation uploadFn parts e he
  cases e <;> simp_all [Event.isMailboxMutation, Event.isMailboxCmd]

/-- IMAP-command events are not mutator-invocation events. -/
theorem filter_move_of_map_cmd (ops : List MailboxOp) :
    (ops.map Event.mailboxCmd).filter Event.isMoveInvoked = [] := by
  rw [List.filter_eq_nil_iff]
  intro e he
  obtain ⟨op, _, rfl⟩ := List.mem_map.mp he
  simp [Event.isMoveInvoked]

/-- Every event in the image of `Event.mailboxCmd` is an IMAP-command
event. -/
theorem filter_cmd_of_map_cmd (ops : List MailboxOp) :
    (ops.map Event.mailboxCmd).filter Event.isMailboxCmd
      = ops.map Event.mailboxCmd := by
  rw [List.filter_eq_self]
  intro e he
  obtain ⟨op, _, rfl⟩ := List.mem_map.mp he
  simp [Event.isMailboxCmd]

/-- The processor's trace when some attachment-typed part was observed:
the loop events, then the single mutator invocation with the message's
UID and the destination folder `done`, then the mutator's IMAP
commands. -/
theorem processMessage_trace_of_attachment
    (uploadFn : String → List Nat → Except UploadError Unit) (srv : ImapServer)
    (uid : Nat) (parts : List Part) (hasAtt : parts.any Part.isAttachment = true) :
    (processMessage uploadFn srv uid parts).1 =
      (processParts uploadFn parts).2 ++ [Event.moveInvoked uid "done"]
        ++ (moveToFolder srv uid "done").1.map Event.mailboxCmd := by
  have hc : (processParts uploadFn parts).1 = true := by
    rw [processParts_fst]; exact hasAtt
  rw [processMessage_eq, if_pos hc]

/-- Claim C2: whenever at least one attachment-typed part was observed
and every non-skipped attachment read and uploaded successfully
(including the case in which every attachment was skipped by the
filter), the processor invokes the mailbox state mutator exactly once,
with the message's UID and the destination folder `done`, and the only
IMAP commands issued are the single resulting `moveToFolder` run. -/
theorem moves_exactly_once_on_full_upload_success
    (uploadFn : String → List Nat → Except UploadError Unit) (srv : ImapServer)
    (uid : Nat) (parts : List Part)
    (hasAtt : parts.any Part.isAttachment = true)
    (_allOk : ∀ f r, Part.attachment f r ∈ parts → shouldIgnoreFile f = false →
      ∃ d, r = Except.ok d ∧ uploadFn f d = Except.ok ()) :
    (processMessage uploadFn srv uid parts).1.filter Event.isMoveInvoked
      = [Event.moveInvoked uid "done"] ∧
    (processMessage uploadFn srv uid parts).1.filter Event.isMailboxCmd
      = (moveToFolder srv uid "done").1.map Event.mailboxCmd := by
  rw [processMessage_trace_of_attachment uploadFn srv uid parts hasAtt]
  constructor
  · rw [List.filter_append, List.filter_append, processParts_filter_move,
      filter_move_of_map_cmd]
    simp [Event.isMoveInvoked]
  · rw [List.filter_append, List.filter_append, processParts_filter_cmd,
      filter_cmd_of_map_cmd]
    simp [Event.isMailboxCmd]

/-- Witness for C2 at a concrete input: one attachment `invoice.pdf`
that reads and uploads successfully, an all-accepting IMAP session,
message UID 7. -/
theorem moves_exactly_once_on_full_upload_success_witness :
    (processMessage (fun _ _ => Except.ok ()) allOkServer 7
        [Part.attachment "invoice.pdf" (Except.ok [1, 2, 3])]).1.filter
        Event.isMoveInvoked
      = [Event.moveInvoked 7 "done"] :=
  (moves_exactly_once_on_full_upload_success (fun _ _ => Except.ok ()) allOkServer 7
    [Part.attachment "invoice.pdf" (Except.ok [1, 2, 3])]
    (by decide)
    (by
      intro f r hmem hig
      simp only [List.mem_singleton] at hmem
      injection hmem with hf hr
      subst hf
      subst hr
      exact ⟨[1, 2, 3], rfl, rfl⟩)).1

/-- Claim C1 (code evaluated at the failing input): a message with a
single attachment `invoice.pdf` whose payload reads successfully but
whose upload fails with HTTP 500 is nevertheless moved — the processor
invokes the mailbox state mutator once and reports overall success,
instead of leaving the message untouched as specified. -/
theorem uploadFailure_still_moves_message :
    shouldIgnoreFile "invoice.pdf" = false ∧
    uploadToLexoffice (HttpResult.response 500 "Internal Server Error")
      = Except.error (UploadError.httpStatus 500 "Internal Server Error") ∧
    (processMessage
        (fun _ _ => uploadToLexoffice (HttpResult.response 500 "Internal Server Error"))
        allOkServer 1 [Part.attachment "invoice.pdf" (Except.ok [37, 80, 68, 70])]).1.filter
        Event.isMoveInvoked
      = [Event.moveInvoked 1 "done"] ∧
    (processMessage
        (fun _ _ => uploadToLexoffice (HttpResult.response 500 "Internal Server Error"))
        allOkServer 1 [Part.attachment "invoice.pdf" (Except.ok [37, 80, 68, 70])]).2
      = Except.ok () := by
  decide

/-- Claim C3: a message with zero attachment-typed parts triggers no
mailbox-state mutation activity at all — no mutator invocation and no
IMAP command — and processing reports success (outcome: no
attachments, the message stays in the inbox). -/
theorem no_attachments_no_mailbox_mutation
    (uploadFn : String → List Nat → Except UploadError Unit) (srv : ImapServer)
    (uid : Nat) (parts : List Part)
    (hNone : parts.any Part.isAttachment = false) :
    (processMessage uploadFn srv uid parts).1.filter Event.isMailboxMutation = [] ∧
    (processMessage uploadFn srv uid parts).2 = Except.ok () := by
  have hc : (processParts uploadFn parts).1 = false := by
    rw [processParts_fst]; exact hNone
  rw [processMessage_eq, if_neg (by simp [hc])]
  refine ⟨?_, rfl⟩
  rw [List.filter_eq_nil_iff]
  intro e he
  simp [processParts_no_mutation uploadFn parts e he]

/-- Witness for C3 at a concrete input: a message consisting of one
non-attachment body part. -/
theorem no_attachments_no_mailbox_mutation_witness :
    (processMessage (fun _ _ => Except.ok ()) allOkServer 4
        [Part.nonAttachment]).1.filter Event.isMailboxMutation = [] ∧
    (processMessage (fun _ _ => Except.ok ()) allOkServer 4
        [Part.nonAttachment]).2 = Except.ok () :=
  no_attachments_no_mailbox_mutation (fun _ _ => Except.ok ()) allOkServer 4
    [Part.nonAttachment] (by decide)

/-- Every upload-related event in the processor's full trace concerns a
filename that the filter does not ignore. -/
theorem processMessage_upload_not_ignored
    (uploadFn : String → List Nat → Except UploadError Unit) (srv : ImapServer)
    (uid : Nat) (parts : List Part) :
    ∀ e ∈ (processMessage uploadFn srv uid parts).1, ∀ f,
      e.uploadFilename = some f → shouldIgnoreFile f = false := by
  intro e he f hf
  rw [processMessage_eq] at he
  by_cases hc : (processParts uploadFn parts).1
  · rw [if_pos hc] at he
    simp only [List.append_assoc, List.mem_append] at he
    rcases he with he | he
    · exact processParts_upload_not_ignored uploadFn parts e he f hf
    · simp only [List.mem_append, List.mem_singleton, List.mem_map] at he
      rcases he with rfl | ⟨op, _, rfl⟩ <;> simp [Event.uploadFilename] at hf
  · rw [if_neg hc] at he
    exact processParts_upload_not_ignored uploadFn parts e he f hf

/-- Claim C5: an attachment whose filename matches an ignore pattern is
never uploaded — the trace contains no upload attempt, no upload
success, and no upload failure for that filename. -/
theorem ignored_attachment_never_uploaded
    (uploadFn : String → List Nat → Except UploadError Unit) (srv : ImapServer)
    (uid : Nat) (parts : List Part) (f : String)
    (hig : shouldIgnoreFile f = true) :
    Event.uploadAttempt f ∉ (processMessage uploadFn srv uid parts).1 ∧
    Event.uploadSucceeded f ∉ (processMessage uploadFn srv uid parts).1 ∧
    Event.uploadFailed f ∉ (processMessage uploadFn srv uid parts).1 := by
  refine ⟨fun hmem => ?_, fun hmem => ?_, fun hmem => ?_⟩ <;>
    have h := processMessage_upload_not_ignored uploadFn srv uid parts _ hmem f
      (by simp [Event.uploadFilename]) <;>
    rw [hig] at h <;> exact Bool.noConfusion h

/-- Witness for C5 at a concrete input: a message carrying the ignored
attachment `AGB_2024.pdf` alongside a regular one. -/
theorem ignored_attachment_never_uploaded_witness :
    Event.uploadAttempt "AGB_2024.pdf" ∉
      (processMessage (fun _ _ => Except.ok ()) allOkServer 9
        [Part.attachment "AGB_2024.pdf" (Except.ok [1]),
         Part.attachment "invoice.pdf" (Except.ok [2])]).1 :=
  (ignored_attachment_never_uploaded (fun _ _ => Except.ok ()) allOkServer 9
    [Part.attachment "AGB_2024.pdf" (Except.ok [1]),
     Part.attachment "invoice.pdf" (Except.ok [2])]
    "AGB_2024.pdf" (by decide)).1

/-- Claim C7: the poll driver's per-message loop processes every listed
identifier exactly once, in listing order, and a failure returned for
one message never prevents any other listed message — in particular any
later one — from being processed. -/
theorem pollDriver_processes_every_message
    (process : Nat → Except String Unit) (uids : List Nat) :
    (processEachMessage process uids).map Prod.fst = uids ∧
    ∀ uid ∈ uids, (uid, process uid) ∈ processEachMessage process uids := by
  induction uids with
  | nil => exact ⟨rfl, by intro uid h; cases h⟩
  | cons u rest ih =>
    refine ⟨?_, ?_⟩
    · simp [processEachMessage, ih.1]
    · intro uid hmem
      rcases List.mem_cons.mp hmem with rfl | hmem
      · exact List.mem_cons_self _ _
      · exact List.mem_cons_of_mem _ (ih.2 uid hmem)

/-- Witness for C7 at a concrete batch: message 1 fails, yet message 2,
listed after it, is still processed and the processed-identifier list is
the full listing. -/
theorem pollDriver_processes_every_message_witness :
    (processEachMessage
        (fun uid => if uid = 1 then Except.error "boom" else Except.ok ())
        [1, 2]).map Prod.fst = [1, 2] ∧
    (2, (fun uid => if uid = 1 then Except.error "boom" else Except.ok ()) 2) ∈
      processEachMessage
        (fun uid => if uid = 1 then Except.error "boom" else Except.ok ()) [1, 2] :=
  ⟨(pollDriver_processes_every_message
      (fun uid => if uid = 1 then Except.error "boom" else Except.ok ()) [1, 2]).1,
   (pollDriver_processes_every_message
      (fun uid => if uid = 1 then Except.error "boom" else Except.ok ()) [1, 2]).2
      2 (by decide)⟩

/-- Claim C8, counterexample: with the four checked variables set and
`IMAP_PORT` blank, startup does not terminate fatally — the blank port
is replaced by the default `993` and processing proceeds, contradicting
the claim that a blank mailbox port is a fatal startup condition. -/
theorem blank_port_env_does_not_fatal :
    envBlankPort "IMAP_PORT" = "" ∧
    mainStartup envBlankPort ≠ StartupOutcome.fatalMissingEnv ∧
    (loadConfig envBlankPort).IMAPPort = "993" := by
  decide

/-- Claim C8 as amended: startup terminates fatally, before any
processing, exactly when one of mailbox host, mailbox user, mailbox
password, or the upload-API credential is blank; a blank mailbox port is
not fatal — it is replaced by the default `993`, so the loaded port is
never blank — and when all four checked values are non-blank, processing
proceeds with the loaded configuration. -/
theorem startup_fatal_iff_required_env_blank (env : String → String) :
    (mainStartup env = StartupOutcome.fatalMissingEnv ↔
      env "IMAP_SERVER" = "" ∨ env "IMAP_USER" = "" ∨
      env "IMAP_PASSWORD" = "" ∨ env "LEXOFFICE_API_KEY" = "") ∧
    (mainStartup env ≠ StartupOutcome.fatalMissingEnv →
      mainStartup env = StartupOutcome.proceed (loadConfig env)) ∧
    (loadConfig env).IMAPPort ≠ "" ∧
    (env "IMAP_PORT" = "" → (loadConfig env).IMAPPort = "993") := by
  refine ⟨?_, ?_, ?_, ?_⟩
  · rw [mainStartup]
    by_cases hs : env "IMAP_SERVER" = "" <;>
      by_cases hu : env "IMAP_USER" = "" <;>
        by_cases hp : env "IMAP_PASSWORD" = "" <;>
          by_cases hk : env "LEXOFFICE_API_KEY" = "" <;>
            simp [loadConfig, hs, hu, hp, hk]
  · intro hne
    by_cases hc : ((loadConfig env).IMAPServer == "" ||
        (loadConfig env).IMAPUser == "" || (loadConfig env).IMAPPassword == "" ||
        (loadConfig env).LexofficeKey == "") = true
    · exfalso
      apply hne
      simp only [mainStartup]
      rw [if_pos hc]
    · simp only [mainStartup]
      rw [if_neg hc]
  · rw [loadConfig]
    by_cases h : env "IMAP_PORT" = "" <;> simp [getEnvOrDefault, h]
  · intro h
    rw [loadConfig]
    simp [getEnvOrDefault, h]

/-- Witness for C8's amended theorem at concrete environments: with all
variables set, startup proceeds; the port default holds for the
blank-port environment. -/
theorem startup_fatal_iff_required_env_blank_witness :
    mainStartup envAllSet = StartupOutcome.proceed (loadConfig envAllSet) ∧
    (loadConfig envBlankPort).IMAPPort = "993" :=
  ⟨(startup_fatal_iff_required_env_blank envAllSet).2.1
      (fun hf => by
        rcases (startup_fatal_iff_required_env_blank envAllSet).1.mp hf with
          h | h | h | h <;> exact absurd h (by decide)),
   (startup_fatal_iff_required_env_blank envBlankPort).2.2.2 (by decide)⟩

/-- Claim C9: the mutator issues its commands strictly in the order
ensure-folder (list, then create only when the listing shows no
case-insensitive match — so creation is idempotent), copy, flag-deleted,
expunge; and whenever the copy step fails, the transition aborts with an
error before any flagging or expunge. -/
theorem moveToFolder_step_order_and_abort
    (srv : ImapServer) (uid : Nat) (folder : String) :
    (∀ l, srv.listResult = Except.ok l →
      l.any (fun m => equalFold m folder) = true →
      srv.copyResult = Except.ok () → srv.storeResult = Except.ok () →
      srv.expungeResult = Except.ok () →
      moveToFolder srv uid folder =
        ([MailboxOp.listOp folder, MailboxOp.copyOp uid folder,
          MailboxOp.storeDeletedOp uid, MailboxOp.expungeOp], Except.ok ())) ∧
    (∀ l, srv.listResult = Except.ok l →
      l.any (fun m => equalFold m folder) = false →
      srv.createResult = Except.ok () → srv.copyResult = Except.ok () →
      srv.storeResult = Except.ok () → srv.expungeResult = Except.ok () →
      moveToFolder srv uid folder =
        ([MailboxOp.listOp folder, MailboxOp.createOp folder,
          MailboxOp.copyOp uid folder, MailboxOp.storeDeletedOp uid,
          MailboxOp.expungeOp], Except.ok ())) ∧
    (∀ e, srv.copyResult = Except.error e →
      MailboxOp.storeDeletedOp uid ∉ (moveToFolder srv uid folder).1 ∧
      MailboxOp.expungeOp ∉ (moveToFolder srv uid folder).1 ∧
      (moveToFolder srv uid folder).2 ≠ Except.ok ()) ∧
    (MailboxOp.createOp folder ∈ (moveToFolder srv uid folder).1 ↔
      ∃ l, srv.listResult = Except.ok l ∧
        l.any (fun m => equalFold m folder) = false) := by
  obtain ⟨ls, cr, cp, st, ex⟩ := srv
  refine ⟨?_, ?_, ?_, ?_⟩
  · rintro l rfl hany rfl rfl rfl
    simp [moveToFolder, ensureFolderExists, hany]
  · rintro l rfl hany rfl rfl rfl rfl
    simp [moveToFolder, ensureFolderExists, hany]
  · rintro e rfl
    cases ls with
    | error e2 => simp [moveToFolder, ensureFolderExists]
    | ok l =>
      by_cases hany : l.any (fun m => equalFold m folder) = true
      · have hex := List.any_eq_true.mp hany
        simp [moveToFolder, ensureFolderExists, hex]
      · have hnex : ¬∃ x ∈ l, equalFold x folder = true := by
          simpa [List.any_eq_true] using hany
        cases cr with
        | error e3 => simp [moveToFolder, ensureFolderExists, hnex]
        | ok _ => simp [moveToFolder, ensureFolderExists, hnex]
  · cases ls with
    | error e2 => simp [moveToFolder, ensureFolderExists]
    | ok l =>
      by_cases hany : l.any (fun m => equalFold m folder) = true
      · have hex := List.any_eq_true.mp hany
        cases cp with
        | error e3 => simp [moveToFolder, ensureFolderExists, hex, hany]
        | ok _ =>
          cases st with
          | error e4 => simp [moveToFolder, ensureFolderExists, hex, hany]
          | ok _ =>
            cases ex with
            | error e5 => simp [moveToFolder, ensureFolderExists, hex, hany]
            | ok _ => simp [moveToFolder, ensureFolderExists, hex, hany]
      · have hany' : (l.any fun m => equalFold m folder) = false := by
          simpa using hany
        have hnex : ¬∃ x ∈ l, equalFold x folder = true := by
          simpa [List.any_eq_true] using hany
        have hall : ∀ x ∈ l, equalFold x folder = false := by
          intro x hx
          by_contra hcontra
          exact hnex ⟨x, hx, by simpa using hcontra⟩
        cases cr with
        | error e3 =>
          cases cp with
          | error e4 => (simp [moveToFolder, ensureFolderExists, hnex, hany']; exact hall)
          | ok _ => (simp [moveToFolder, ensureFolderExists, hnex, hany']; exact hall)
        | ok _ =>
          cases cp with
          | error e4 => (simp [moveToFolder, ensureFolderExists, hnex, hany']; exact hall)
          | ok _ =>
            cases st with
            | error e5 => (simp [moveToFolder, ensureFolderExists, hnex, hany']; exact hall)
            | ok _ =>
              cases ex with
              | error e6 => (simp [moveToFolder, ensureFolderExists, hnex, hany']; exact hall)
              | ok _ => (simp [moveToFolder, ensureFolderExists, hnex, hany']; exact hall)

/-- Witness for C9 at a concrete session: the all-accepting session that
already has a `done` folder runs exactly list, copy, flag, expunge in
order and succeeds, for message UID 3. -/
theorem moveToFolder_step_order_and_abort_witness :
    moveToFolder allOkServer 3 "done" =
      ([MailboxOp.listOp "done", MailboxOp.copyOp 3 "done",
        MailboxOp.storeDeletedOp 3, MailboxOp.expungeOp], Except.ok ()) :=
  (moveToFolder_step_order_and_abort allOkServer 3 "done").1 ["done"]
    rfl (by decide) rfl rfl rfl

end ImapToLexoffice
